import Mathlib

/-!
Verification of the venice-cli core: failure classification and retry
engine (src/lib/api.ts), the streaming decoder (chatCompletionStream),
the tool dispatcher (src/lib/tools.ts), the usage sink
(trackUsage in src/lib/config.ts) and the conversation loop
(streamChat / nonStreamChat in the chat command).

The JavaScript source is shallowly embedded: effectful loops become
explicit recursions over oracles describing the environment (attempt
outcomes, probe results, API responses, approval answers), thrown
exceptions become Except.error, and JSON.parse is modelled by an
executable JSON reader over character lists.
-/

/-! ## A model of JavaScript JSON values and JSON.parse -/

/-- JSON values as produced by JSON.parse.  A number is stored as a sign,
a decimal mantissa and a power-of-ten exponent, which is enough to decide
JavaScript truthiness (zero mantissa means falsy). -/
inductive Json where
  | null : Json
  | bool (b : Bool) : Json
  | num (neg : Bool) (mant : Nat) (exp10 : Int) : Json
  | str (s : String) : Json
  | arr (xs : List Json) : Json
  | obj (fields : List (String × Json)) : Json

/-- JSON whitespace accepted between tokens by JSON.parse. -/
def isJsonWs (c : Char) : Bool :=
  match c with
  | ' ' | '\t' | '\n' | '\r' => true
  | _ => false

/-- Consume an expected literal tail such as "ull" after 'n'. -/
def parseLit (lit : List Char) (cs : List Char) : Option (List Char) :=
  match lit, cs with
  | [], _ => some cs
  | l :: ls, c :: cs2 => if c == l then parseLit ls cs2 else none
  | _ :: _, [] => none

/-- Hexadecimal digit value, for \uXXXX escapes. -/
def hexVal (c : Char) : Option Nat :=
  let n := c.toNat
  if 48 ≤ n && n ≤ 57 then some (n - 48)
  else if 97 ≤ n && n ≤ 102 then some (n - 87)
  else if 65 ≤ n && n ≤ 70 then some (n - 55)
  else none

/-- Body of a JSON string after the opening quote, with the escapes
JSON.parse accepts; control characters are rejected. -/
def parseStrBody : Nat → List Char → List Char → Option (String × List Char)
  | 0, _, _ => none
  | f + 1, acc, cs =>
    match cs with
    | [] => none
    | '"' :: rest => some (String.mk acc.reverse, rest)
    | '\\' :: rest =>
      match rest with
      | [] => none
      | e :: rest2 =>
        if e == '"' then parseStrBody f ('"' :: acc) rest2
        else if e == '\\' then parseStrBody f ('\\' :: acc) rest2
        else if e == '/' then parseStrBody f ('/' :: acc) rest2
        else if e == 'b' then parseStrBody f ('\x08' :: acc) rest2
        else if e == 'f' then parseStrBody f ('\x0c' :: acc) rest2
        else if e == 'n' then parseStrBody f ('\n' :: acc) rest2
        else if e == 'r' then parseStrBody f ('\r' :: acc) rest2
        else if e == 't' then parseStrBody f ('\t' :: acc) rest2
        else if e == 'u' then
          match rest2 with
          | h1 :: h2 :: h3 :: h4 :: rest3 =>
            match hexVal h1, hexVal h2, hexVal h3, hexVal h4 with
            | some a, some b, some c2, some d =>
              parseStrBody f (Char.ofNat (((a * 16 + b) * 16 + c2) * 16 + d) :: acc) rest3
            | _, _, _, _ => none
          | _ => none
        else none
    | c :: rest =>
      if c.toNat < 32 then none else parseStrBody f (c :: acc) rest

/-- Accumulate decimal digits into a natural number. -/
def digitsToNat (acc : Nat) : List Char → Nat
  | [] => acc
  | c :: cs => digitsToNat (acc * 10 + (c.toNat - '0'.toNat)) cs

/-- Optional exponent part of a JSON number. -/
def parseExpPart (neg : Bool) (mant : Nat) (exp0 : Int) (cs : List Char) :
    Option (Json × List Char) :=
  match cs with
  | 'e' :: r =>
    let p : Int × List Char :=
      match r with
      | '+' :: rr => (1, rr)
      | '-' :: rr => (-1, rr)
      | _ => (1, r)
    let eds := p.2.takeWhile Char.isDigit
    if eds = [] then none
    else some (Json.num neg mant (exp0 + p.1 * (digitsToNat 0 eds : Int)), p.2.dropWhile Char.isDigit)
  | 'E' :: r =>
    let p : Int × List Char :=
      match r with
      | '+' :: rr => (1, rr)
      | '-' :: rr => (-1, rr)
      | _ => (1, r)
    let eds := p.2.takeWhile Char.isDigit
    if eds = [] then none
    else some (Json.num neg mant (exp0 + p.1 * (digitsToNat 0 eds : Int)), p.2.dropWhile Char.isDigit)
  | _ => some (Json.num neg mant exp0, cs)

/-- A JSON number: optional minus, integer part without a spurious leading
zero, optional fraction, optional exponent. -/
def parseNum (cs : List Char) : Option (Json × List Char) :=
  let sp : Bool × List Char :=
    if cs.headD ' ' == '-' then (true, cs.tail) else (false, cs)
  match sp.2 with
  | [] => none
  | c :: _ =>
    if ¬ c.isDigit then none
    else
      let intDigits := sp.2.takeWhile Char.isDigit
      let rest1 := sp.2.dropWhile Char.isDigit
      if intDigits.length > 1 && intDigits.headD '0' == '0' then none
      else
        let mant0 := digitsToNat 0 intDigits
        match rest1 with
        | '.' :: r2 =>
          let fracDigits := r2.takeWhile Char.isDigit
          if fracDigits = [] then none
          else
            parseExpPart sp.1 (mant0 * 10 ^ fracDigits.length + digitsToNat 0 fracDigits)
              (-(fracDigits.length : Int)) (r2.dropWhile Char.isDigit)
        | _ => parseExpPart sp.1 mant0 0 rest1

mutual

/-- Fueled JSON value reader; the fuel is generous enough for any input
at the call site in parseJson. -/
def parseValue : Nat → List Char → Option (Json × List Char)
  | 0, _ => none
  | f + 1, cs0 =>
    let cs := cs0.dropWhile isJsonWs
    match cs with
    | [] => none
    | c :: rest =>
      if c == 'n' then (parseLit ['u', 'l', 'l'] rest).map (fun r => (Json.null, r))
      else if c == 't' then (parseLit ['r', 'u', 'e'] rest).map (fun r => (Json.bool true, r))
      else if c == 'f' then (parseLit ['a', 'l', 's', 'e'] rest).map (fun r => (Json.bool false, r))
      else if c == '"' then
        (parseStrBody (rest.length + 1) [] rest).map (fun p => (Json.str p.1, p.2))
      else if c == '[' then
        let r1 := rest.dropWhile isJsonWs
        match r1 with
        | ']' :: r2 => some (Json.arr [], r2)
        | _ => (parseItems f r1).map (fun p => (Json.arr p.1, p.2))
      else if c == '\x7b' then
        let r1 := rest.dropWhile isJsonWs
        match r1 with
        | '\x7d' :: r2 => some (Json.obj [], r2)
        | _ => (parseMembers f r1).map (fun p => (Json.obj p.1, p.2))
      else parseNum cs

/-- Comma-separated array items up to the closing bracket. -/
def parseItems : Nat → List Char → Option (List Json × List Char)
  | 0, _ => none
  | f + 1, cs =>
    match parseValue f cs with
    | none => none
    | some (v, r) =>
      let r1 := r.dropWhile isJsonWs
      match r1 with
      | ',' :: r2 => (parseItems f r2).map (fun p => (v :: p.1, p.2))
      | ']' :: r2 => some ([v], r2)
      | _ => none

/-- Comma-separated object members up to the closing brace. -/
def parseMembers : Nat → List Char → Option (List (String × Json) × List Char)
  | 0, _ => none
  | f + 1, cs =>
    let cs1 := cs.dropWhile isJsonWs
    match cs1 with
    | '"' :: r =>
      match parseStrBody (r.length + 1) [] r with
      | none => none
      | some (k, r1) =>
        let r2 := r1.dropWhile isJsonWs
        match r2 with
        | ':' :: r3 =>
          match parseValue f r3 with
          | none => none
          | some (v, r4) =>
            let r5 := r4.dropWhile isJsonWs
            match r5 with
            | ',' :: r6 => (parseMembers f r6).map (fun p => ((k, v) :: p.1, p.2))
            | '\x7d' :: r6 => some ([(k, v)], r6)
            | _ => none
        | _ => none
    | _ => none

end

/-- Model of JSON.parse: parse one value and require only trailing
whitespace after it; anything else is a parse failure (a thrown
SyntaxError in JavaScript). -/
def parseJson (s : String) : Option Json :=
  match parseValue (2 * s.length + 8) s.data with
  | some (j, r) => if r.dropWhile isJsonWs = [] then some j else none
  | none => none

/-- JavaScript truthiness of a JSON value: null, false, 0 and the empty
string are falsy; every array and object is truthy. -/
def Json.truthy : Json → Bool
  | Json.null => false
  | Json.bool b => b
  | Json.num _ m _ => m != 0
  | Json.str s => s != ""
  | Json.arr _ => true
  | Json.obj _ => true

/-- Property lookup keeping the last duplicate, as JSON.parse does. -/
def lookupLast : List (String × Json) → String → Option Json
  | [], _ => none
  | (k, v) :: rest, key =>
    match lookupLast rest key with
    | some r => some r
    | none => if k == key then some v else none

/-- obj.field access; undefined (none) on non-objects, as optional
chaining would yield. -/
def Json.getField : Json → String → Option Json
  | Json.obj fs, k => lookupLast fs k
  | _, _ => none

/-- arr[i] access; undefined (none) on non-arrays. -/
def Json.getIdx : Json → Nat → Option Json
  | Json.arr xs, i => xs.get? i
  | _, _ => none

/-! ## Failure classifier and retry engine (apiRequest in src/lib/api.ts) -/

/-- The closed failure-kind enumeration of the spec.  The source encodes
it through the VeniceApiError predicates isAuthError, isRateLimited and
isRetryable, consulted in exactly this order by the catch
block of apiRequest. -/
inductive FailureKind where
  | AuthError : FailureKind
  | RateLimited : FailureKind
  | Transient : FailureKind
  | ClientError : FailureKind
deriving DecidableEq

/-- VeniceApiError.isAuthError: status 401 or 403. -/
def isAuthErrorStatus : Option Nat → Bool
  | some n => n == 401 || n == 403
  | none => false

/-- VeniceApiError.isRateLimited: status 429. -/
def isRateLimitedStatus : Option Nat → Bool
  | some n => n == 429
  | none => false

/-- VeniceApiError.isRetryable: absent status (network fault) or 5xx. -/
def isRetryableStatus : Option Nat → Bool
  | some n => decide (500 ≤ n) && decide (n < 600)
  | none => true

/-- The failure classification induced by the catch block of apiRequest, which
tests isAuthError, then isRateLimited, then isRetryable, and otherwise
treats the error as fatal (ClientError). -/
def classify (s : Option Nat) : FailureKind :=
  if isAuthErrorStatus s then FailureKind.AuthError
  else if isRateLimitedStatus s then FailureKind.RateLimited
  else if isRetryableStatus s then FailureKind.Transient
  else FailureKind.ClientError

/-- Outcome of one fetch attempt: success, an HTTP error response with a
status code, or a thrown network error (no status). -/
inductive AttemptOutcome where
  | ok : AttemptOutcome
  | httpErr (status : Nat) : AttemptOutcome
  | netErr : AttemptOutcome
deriving DecidableEq

/-- Observable side effects of the retry loop: starting an attempt,
sleeping, and running the checkOnline connectivity probe. -/
inductive REvent where
  | attemptEv (i : Nat) : REvent
  | sleepEv (ms : Nat) : REvent
  | probeEv (ok : Bool) : REvent
deriving DecidableEq

/-- MAX_RETRIES in src/lib/api.ts. -/
def MAX_RETRIES : Nat := 3

/-- RETRY_DELAY_MS in src/lib/api.ts. -/
def RETRY_DELAY_MS : Nat := 1000

/-- The message thrown by apiRequest on an authentication failure. -/
def authFailMsg : String :=
  "Authentication failed. Please check your API key.\nUpdate with: venice config set api_key <your-key>"

/-- The message thrown by apiRequest when the connectivity probe fails. -/
def offlineFailMsg : String :=
  "Unable to connect to Venice API.\nPlease check your internet connection."

/-- Result of apiRequest: a successful attempt, or one of its thrown
errors.  fatalError carries the status of the last VeniceApiError
(none for a network error rethrown after exhausting the budget);
fatalExhausted models the unreachable generic throw at the end. -/
inductive RunResult where
  | success (attempt : Nat) : RunResult
  | fatalAuth (msg : String) : RunResult
  | fatalOffline (msg : String) : RunResult
  | fatalError (status : Option Nat) : RunResult
  | fatalExhausted : RunResult
deriving DecidableEq

/-- The retry loop of apiRequest.  `op a` is the outcome of fetch attempt
`a`, `probe a` the checkOnline result if consulted at attempt `a`;
`fuel` counts the remaining loop iterations (`retries + 1 - attempt` in
a canonical run) and `lastE` carries the status of the last
VeniceApiError, for the `throw lastError` after the loop. -/
def loopGo (op : Nat → AttemptOutcome) (probe : Nat → Bool) (retries base : Nat) :
    Nat → Nat → Option Nat → RunResult × List REvent
  | 0, _, lastE =>
    (match lastE with
     | some st => RunResult.fatalError (some st)
     | none => RunResult.fatalExhausted, [])
  | f + 1, a, lastE =>
    match op a with
    | AttemptOutcome.ok => (RunResult.success a, [REvent.attemptEv a])
    | AttemptOutcome.httpErr s =>
      match classify (some s) with
      | FailureKind.AuthError => (RunResult.fatalAuth authFailMsg, [REvent.attemptEv a])
      | FailureKind.RateLimited =>
        let r := loopGo op probe retries base f (a + 1) (some s)
        (r.1, REvent.attemptEv a :: REvent.sleepEv (base * (a + 1) * 2) :: r.2)
      | FailureKind.Transient =>
        if a < retries then
          let r := loopGo op probe retries base f (a + 1) (some s)
          (r.1, REvent.attemptEv a :: REvent.sleepEv (base * (a + 1)) :: r.2)
        else (RunResult.fatalError (some s), [REvent.attemptEv a])
      | FailureKind.ClientError => (RunResult.fatalError (some s), [REvent.attemptEv a])
    | AttemptOutcome.netErr =>
      if a < retries then
        if probe a then
          let r := loopGo op probe retries base f (a + 1) lastE
          (r.1, REvent.attemptEv a :: REvent.probeEv true ::
            REvent.sleepEv (base * (a + 1)) :: r.2)
        else (RunResult.fatalOffline offlineFailMsg, [REvent.attemptEv a, REvent.probeEv false])
      else (RunResult.fatalError none, [REvent.attemptEv a])

/-- One apiRequest call: the loop runs attempts 0 .. retries. -/
def apiRequestRun (op : Nat → AttemptOutcome) (probe : Nat → Bool)
    (retries base : Nat) : RunResult × List REvent :=
  loopGo op probe retries base (retries + 1) 0 none

/-- Recognizer for probe events in a retry trace. -/
def isProbeEv : REvent → Bool
  | REvent.probeEv _ => true
  | _ => false

/-! ## String helpers mirroring the JavaScript primitives used by the
streaming decoder: split on newline, trim, the data-marker prefix test,
and slice(6). -/

/-- JavaScript String.prototype.split('\n') on a character list. -/
def splitNlChars : List Char → List (List Char)
  | [] => [[]]
  | c :: cs =>
    if c == '\n' then [] :: splitNlChars cs
    else
      match splitNlChars cs with
      | [] => [[c]]
      | l :: ls => (c :: l) :: ls

/-- buffer.split('\n'). -/
def jsSplitNl (s : String) : List String :=
  (splitNlChars s.data).map String.mk

/-- Whitespace removed by String.prototype.trim. -/
def isJsTrimChar (c : Char) : Bool :=
  match c with
  | ' ' | '\t' | '\n' | '\r' | '\x0b' | '\x0c' => true
  | _ => false

/-- data.trim(). -/
def jsTrim (s : String) : String :=
  String.mk (((s.data.dropWhile isJsTrimChar).reverse.dropWhile isJsTrimChar).reverse)

/-- Prefix test on character lists. -/
def startsWithData : List Char → List Char → Bool
  | [], _ => true
  | _ :: _, [] => false
  | p :: ps, c :: cs => p == c && startsWithData ps cs

/-- The startsWith test of a line against the data marker. -/
def jsStartsWithDataMarker (s : String) : Bool :=
  startsWithData "data: ".data s.data

/-- line.slice(n). -/
def jsDropChars (n : Nat) (s : String) : String :=
  String.mk (s.data.drop n)

/-! ## Streaming decoder (chatCompletionStream in src/lib/api.ts) -/

/-- Events yielded by the chatCompletionStream generator.  contentEv and
toolCallsEv carry the raw delta fields; doneEv carries the retained
usage totals (null when none were seen). -/
inductive StreamEvent where
  | contentEv (c : Json) : StreamEvent
  | toolCallsEv (tc : Json) : StreamEvent
  | doneEv (usage : Option Json) : StreamEvent

/-- One entry written to the usage sink by trackUsage from the [DONE]
branch of the decoder. -/
structure SinkRecord where
  command : String
  model : String
  usage : Json

/-- json.choices?.[0]?.delta with optional chaining. -/
def deltaOf (j : Json) : Option Json :=
  ((j.getField "choices").bind (fun cj => cj.getIdx 0)).bind (fun c0 => c0.getField "delta")

/-- The usage update of one record: if json.usage is truthy it replaces
the retained totalUsage. -/
def usageUpd (j : Json) (totalUsage : Option Json) : Option Json :=
  match j.getField "usage" with
  | some uj => if uj.truthy then some uj else totalUsage
  | none => totalUsage

/-- The content-delta events of one record: yielded only when the content
field is truthy. -/
def contentEvsOf (delta : Option Json) : List StreamEvent :=
  match delta.bind (fun d => d.getField "content") with
  | some cj => if cj.truthy then [StreamEvent.contentEv cj] else []
  | none => []

/-- The tool-call-delta events of one record: yielded only when the
tool_calls field is truthy. -/
def toolEvsOf (delta : Option Json) : List StreamEvent :=
  match delta.bind (fun d => d.getField "tool_calls") with
  | some tj => if tj.truthy then [StreamEvent.toolCallsEv tj] else []
  | none => []

/-- Processing of one buffered line: updated totalUsage, yielded events,
sink records, and whether the generator returned ([DONE]). -/
def processLine (model : String) (totalUsage : Option Json) (line : String) :
    Option Json × List StreamEvent × List SinkRecord × Bool :=
  if jsStartsWithDataMarker line then
    let data := jsTrim (jsDropChars 6 line)
    if data = "[DONE]" then
      let sink : List SinkRecord :=
        match totalUsage with
        | some uj => [SinkRecord.mk "chat" model uj]
        | none => []
      (totalUsage, [StreamEvent.doneEv totalUsage], sink, true)
    else
      match parseJson data with
      | none => (totalUsage, [], [], false)
      | some j =>
        (usageUpd j totalUsage, contentEvsOf (deltaOf j) ++ toolEvsOf (deltaOf j), [], false)
  else (totalUsage, [], [], false)

/-- The inner for-loop over the lines of one read, stopping when a line
terminated the generator. -/
def processLines (model : String) : Option Json → List String →
    Option Json × List StreamEvent × List SinkRecord × Bool
  | u, [] => (u, [], [], false)
  | u, l :: rest =>
    let r1 := processLine model u l
    if r1.2.2.2 then (r1.1, r1.2.1, r1.2.2.1, true)
    else
      let r2 := processLines model r1.1 rest
      (r2.1, r1.2.1 ++ r2.2.1, r1.2.2.1 ++ r2.2.2.1, r2.2.2.2)

/-- The outer read loop: append the chunk to the buffer, split on
newlines, keep the final partial line buffered; at transport end of
stream, yield a final done event with the retained usage and record
nothing to the sink. -/
def decodeGo (model : String) : Option Json → String → List String →
    List StreamEvent × List SinkRecord
  | u, _, [] => ([StreamEvent.doneEv u], [])
  | u, buffer, c :: rest =>
    let parts := jsSplitNl (buffer ++ c)
    let r := processLines model u parts.dropLast
    if r.2.2.2 then (r.2.1, r.2.2.1)
    else
      let r2 := decodeGo model r.1 (parts.getLastD "") rest
      (r.2.1 ++ r2.1, r.2.2.1 ++ r2.2)

/-- The decoding by chatCompletionStream of a list of transport reads
(already text-decoded), starting with an empty buffer and no usage. -/
def chatCompletionStream (model : String) (chunks : List String) :
    List StreamEvent × List SinkRecord :=
  decodeGo model none "" chunks

/-- The lines actually processed by the decoder: everything before the
final partial segment of each buffered split.  Used to phrase
hypotheses about the input stream. -/
def allProcessedLines : String → List String → List String
  | _, [] => []
  | buffer, c :: rest =>
    let parts := jsSplitNl (buffer ++ c)
    parts.dropLast ++ allProcessedLines (parts.getLastD "") rest

/-- A line whose payload is the [DONE] sentinel. -/
def isDoneLine (l : String) : Bool :=
  jsStartsWithDataMarker l && (jsTrim (jsDropChars 6 l) == "[DONE]")

/-- The usage totals a single line contributes (none if it is not a
well-formed data record with truthy usage). -/
def usageOfLine (line : String) : Option Json :=
  if jsStartsWithDataMarker line then
    let data := jsTrim (jsDropChars 6 line)
    if data = "[DONE]" then none
    else
      match parseJson data with
      | none => none
      | some j => usageUpd j none
  else none

/-- Last-seen usage totals over a list of lines ("latest wins"). -/
def lastUsageAcc : Option Json → List String → Option Json
  | u, [] => u
  | u, l :: rest =>
    lastUsageAcc (match usageOfLine l with | some x => some x | none => u) rest

/-- Recognizer for the terminal event. -/
def isDoneEvent : StreamEvent → Bool
  | StreamEvent.doneEv _ => true
  | _ => false

/-! ## Tool dispatcher (executeTool in src/lib/tools.ts) -/

/-- executeTool: look the tool up in the registry, ask for interactive
approval when enabled, then run the handler, converting a thrown handler
error into a textual result.  The handler registry and the approval
prompt are oracles. -/
def executeTool (executors : List (String × (Json → Except String String)))
    (name : String) (args : Json) (interactive : Bool)
    (approve : String → Json → Bool) : String :=
  match executors.lookup name with
  | none => "Unknown tool: " ++ name
  | some ex =>
    if interactive && !(approve name args) then "Tool execution cancelled by user"
    else
      match ex args with
      | Except.ok s => s
      | Except.error e => "Tool error: " ++ e

/-! ## Usage sink (trackUsage / saveUsage in src/lib/config.ts) and the
non-streaming chat completion (chatCompletion in src/lib/api.ts) -/

/-- Usage totals of one sub-exchange. -/
structure Usage where
  prompt_tokens : Nat
  completion_tokens : Nat
  total_tokens : Nat
deriving DecidableEq

/-- One usage entry as recorded by trackUsage. -/
structure UsageEntry where
  command : String
  model : String
  usage : Usage
deriving DecidableEq

/-- trackUsage: loadUsage swallows read failures (returning an empty
list), the entry is appended, saveUsage filters by retention (the clock
comparison is the oracle keep) and writes; a write failure *throws*.
Returns the stored list, or the propagated write error. -/
def trackUsage (load : Except String (List UsageEntry)) (keep : UsageEntry → Bool)
    (writeOk : Bool) (entry : UsageEntry) : Except String (List UsageEntry) :=
  let usage :=
    match load with
    | Except.ok l => l
    | Except.error _ => []
  let appended := usage ++ [entry]
  if writeOk then Except.ok (appended.filter keep) else Except.error "write failed"

/-- A tool call as returned in a chat completion. -/
structure ToolCallFunction where
  name : String
  arguments : String
deriving DecidableEq

structure ToolCall where
  id : String
  function : ToolCallFunction
deriving DecidableEq

/-- The message object inside a response choice; both fields may be
absent. -/
structure RespMessage where
  content : Option String
  tool_calls : Option (List ToolCall)
deriving DecidableEq

structure RespChoice where
  message : Option RespMessage
  finish_reason : Option String
deriving DecidableEq

/-- The parsed body of a non-streaming /chat/completions response. -/
structure NonStreamResp where
  choices : List RespChoice
  usage : Option Usage
deriving DecidableEq

/-- What chatCompletion returns to its caller. -/
structure ChatResponse where
  content : String
  tool_calls : List ToolCall
  usage : Option Usage
  finish_reason : String
deriving DecidableEq

/-- The post-processing chatCompletion applies to a successful response:
track
usage when present (the sink call is not guarded, so a sink failure
propagates), then build the result with the JavaScript defaulting
(empty-string content and stop finish reason).  The sink is the oracle
track. -/
def chatCompletion (resp : NonStreamResp) (model : String)
    (track : UsageEntry → Except String Unit) : Except String ChatResponse :=
  let choice := resp.choices.head?
  let trackRes :=
    match resp.usage with
    | some u => track (UsageEntry.mk "chat" model u)
    | none => Except.ok ()
  match trackRes with
  | Except.error e => Except.error e
  | Except.ok _ =>
    Except.ok (ChatResponse.mk
      (((choice.bind (fun c => c.message)).bind (fun m => m.content)).getD "")
      (((choice.bind (fun c => c.message)).bind (fun m => m.tool_calls)).getD [])
      resp.usage
      ((choice.bind (fun c => c.finish_reason)).getD "stop"))

/-! ## Conversation loop (streamChat / nonStreamChat in the chat command) -/

/-- A conversation message as pushed by the chat command: role, content,
the tool_calls attached to an assistant message, and the tool_call_id of
a tool-result message. -/
structure Message where
  role : String
  content : String
  tool_calls : List ToolCall
  tool_call_id : Option String
deriving DecidableEq

/-- For the conversation loop only the identity of a tool definition matters;
its schema is opaque.  A request either offers a list of definitions or
offers none. -/
abbrev ToolDefinition := String

/-- One chat-completion request issued by the loop, as recorded for the
call log: the messages sent, the model, and the tools offered. -/
structure ApiCall where
  messages : List Message
  model : String
  tools : List ToolDefinition
deriving DecidableEq

/-- One chunk yielded by chatCompletionStream as consumed by streamChat:
optional content delta, optional tool-call fragments, optional usage,
and the terminal flag. -/
structure StreamChunk where
  content : Option String
  tool_calls : Option (List ToolCall)
  usage : Option Json
  done : Bool

/-- The accumulation loop of streamChat over the chunks of the first
response:
content concatenates, tool-call fragments are pushed, usage is
last-wins, and a done chunk breaks after being processed. -/
def accumGo : String × List ToolCall × Option Json → List StreamChunk →
    String × List ToolCall × Option Json
  | st, [] => st
  | st, ch :: rest =>
    let c2 := st.1 ++ ch.content.getD ""
    let t2 := st.2.1 ++ ch.tool_calls.getD []
    let u2 :=
      match ch.usage with
      | some x => some x
      | none => st.2.2
    if ch.done then (c2, t2, u2) else accumGo (c2, t2, u2) rest

/-- JSON.parse of toolCall.function.arguments with the empty-object
fallback: the empty string is falsy and replaced by the empty-object
literal; any other string is parsed as-is. -/
def parseArgs (s : String) : Option Json :=
  parseJson (if s = "" then "\x7b\x7d" else s)

/-- The loop of nonStreamChat over the returned tool calls: parse the
arguments (an unguarded JSON.parse, so a failure throws), dispatch, and
push the paired assistant and tool messages. -/
def runToolCalls (dispatch : String → Json → String) (content : String) :
    List ToolCall → List Message → Except String (List Message)
  | [], msgs => Except.ok msgs
  | tc :: rest, msgs =>
    match parseArgs tc.function.arguments with
    | none => Except.error ("JSON parse error in tool arguments: " ++ tc.function.arguments)
    | some args =>
      let result := dispatch tc.function.name args
      runToolCalls dispatch content rest
        (msgs ++ [Message.mk "assistant" content [tc] none,
                  Message.mk "tool" result [] (some tc.id)])

/-- The outcome of one nonStreamChat exchange: the mutated message list,
the log of chat-completion requests issued, and the content finally
printed. -/
structure ChatRun where
  messages : List Message
  calls : List ApiCall
  finalContent : String
deriving DecidableEq

/-- nonStreamChat: one request with the tools offered; if the response
carries tool calls, run them all, then issue a single follow-up request
with the same model and no tools, whose content is printed; otherwise
the initial content is printed.  `api k` is the response to the k-th
request issued. -/
def nonStreamChat (msgs0 : List Message) (model : String) (tools : List ToolDefinition)
    (dispatch : String → Json → String) (api : Nat → ChatResponse) :
    Except String ChatRun :=
  let response := api 0
  if response.tool_calls = [] then
    Except.ok (ChatRun.mk msgs0 [ApiCall.mk msgs0 model tools] response.content)
  else
    match runToolCalls dispatch response.content response.tool_calls msgs0 with
    | Except.error e => Except.error e
    | Except.ok msgs1 =>
      Except.ok (ChatRun.mk msgs1
        [ApiCall.mk msgs0 model tools, ApiCall.mk msgs1 model []]
        (api 1).content)

/-- The outcome of one streamChat exchange: the mutated message list, the
request log, the content segments printed (initial content, then one
segment per follow-up), and the last-seen usage. -/
structure StreamRun where
  messages : List Message
  calls : List ApiCall
  printed : List String
  usage : Option Json

/-- The per-tool-call loop of streamChat: for EACH accumulated tool call it
parses the arguments (unguarded), dispatches, pushes the paired
assistant/tool messages, and then consumes a whole follow-up streamed
exchange (same model, no tools) before moving to the next call.
`sapi k` is the chunk list of the k-th streamed request. -/
def streamToolLoop (dispatch : String → Json → String) (model : String)
    (fullContent : String) (sapi : Nat → List StreamChunk) :
    List ToolCall → List Message → List ApiCall → List String → Option Json → Nat →
    Except String (List Message × List ApiCall × List String × Option Json)
  | [], msgs, calls, printed, usage, _ => Except.ok (msgs, calls, printed, usage)
  | tc :: rest, msgs, calls, printed, usage, k =>
    match parseArgs tc.function.arguments with
    | none => Except.error ("JSON parse error in tool arguments: " ++ tc.function.arguments)
    | some args =>
      let result := dispatch tc.function.name args
      let msgs2 := msgs ++ [Message.mk "assistant" fullContent [tc] none,
                            Message.mk "tool" result [] (some tc.id)]
      let chunks := sapi k
      let fu := chunks.foldl (fun acc2 ch => acc2 ++ ch.content.getD "") ""
      let usage2 := chunks.foldl
        (fun uacc ch => match ch.usage with | some x => some x | none => uacc) usage
      streamToolLoop dispatch model fullContent sapi rest msgs2
        (calls ++ [ApiCall.mk msgs2 model []]) (printed ++ [fu]) usage2 (k + 1)

/-- streamChat: accumulate the first streamed response; if tool-call
fragments were collected, run the per-call loop above (one follow-up per
call); otherwise the accumulated content is already final. -/
def streamChat (msgs0 : List Message) (model : String) (tools : List ToolDefinition)
    (dispatch : String → Json → String) (sapi : Nat → List StreamChunk) :
    Except String StreamRun :=
  let acc := accumGo ("", [], none) (sapi 0)
  if acc.2.1 = [] then
    Except.ok (StreamRun.mk msgs0 [ApiCall.mk msgs0 model tools] [acc.1] acc.2.2)
  else
    match streamToolLoop dispatch model acc.1 sapi acc.2.1 msgs0
        [ApiCall.mk msgs0 model tools] [acc.1] acc.2.2 1 with
    | Except.error e => Except.error e
    | Except.ok (m, cs, p, u) => Except.ok (StreamRun.mk m cs p u)

/-- Number of requests a streamChat run issued (0 when it threw). -/
def streamRunCallCount (r : Except String StreamRun) : Nat :=
  match r with
  | Except.ok run => run.calls.length
  | Except.error _ => 0

/-- Number of messages in the final list of a nonStreamChat run (0 when
it threw). -/
def chatRunMsgCount (r : Except String ChatRun) : Nat :=
  match r with
  | Except.ok run => run.messages.length
  | Except.error _ => 0

/-! ## Shared lemmas about the retry loop -/

/-- Every loop iteration logs its attempt first. -/
theorem loopGo_snd_cons (op : Nat → AttemptOutcome) (probe : Nat → Bool)
    (retries base f a : Nat) (lastE : Option Nat) :
    ∃ rest, (loopGo op probe retries base (f + 1) a lastE).2 = REvent.attemptEv a :: rest := by
  cases hop : op a with
  | ok => exact ⟨[], by simp [loopGo, hop]⟩
  | httpErr s =>
    cases hc : classify (some s) with
    | AuthError => exact ⟨[], by simp [loopGo, hop, hc]⟩
    | RateLimited =>
      exact ⟨REvent.sleepEv (base * (a + 1) * 2) ::
        (loopGo op probe retries base f (a + 1) (some s)).2, by simp [loopGo, hop, hc]⟩
    | Transient =>
      by_cases hr : a < retries
      · exact ⟨REvent.sleepEv (base * (a + 1)) ::
          (loopGo op probe retries base f (a + 1) (some s)).2, by simp [loopGo, hop, hc, hr]⟩
      · exact ⟨[], by simp [loopGo, hop, hc, hr]⟩
    | ClientError => exact ⟨[], by simp [loopGo, hop, hc]⟩
  | netErr =>
    by_cases hr : a < retries
    · cases hp : probe a
      · exact ⟨[REvent.probeEv false], by simp [loopGo, hop, hr, hp]⟩
      · exact ⟨REvent.probeEv true :: REvent.sleepEv (base * (a + 1)) ::
          (loopGo op probe retries base f (a + 1) lastE).2, by simp [loopGo, hop, hr, hp]⟩
    · exact ⟨[], by simp [loopGo, hop, hr]⟩

/-- C1.  The failure classifier maps 401/403 to AuthError, 429 to
RateLimited, any 5xx or an absent status to Transient, and any other 4xx
to ClientError; and this classification alone decides retry
eligibility in the retry loop: an AuthError or ClientError outcome stops
the loop at that attempt with no sleep and no probe, while a RateLimited
or (in-budget) Transient outcome leads to a further attempt. -/
theorem classify_decides_retry (s : Option Nat) :
    ((s = some 401 ∨ s = some 403) → classify s = FailureKind.AuthError)
    ∧ (s = some 429 → classify s = FailureKind.RateLimited)
    ∧ (∀ n, s = some n → 500 ≤ n → n ≤ 599 → classify s = FailureKind.Transient)
    ∧ (s = none → classify s = FailureKind.Transient)
    ∧ (∀ n, s = some n → 400 ≤ n → n ≤ 499 → n ≠ 401 → n ≠ 403 → n ≠ 429 →
        classify s = FailureKind.ClientError)
    ∧ (∀ (op : Nat → AttemptOutcome) (probe : Nat → Bool) (retries base f a : Nat)
        (lastE : Option Nat) (n : Nat), s = some n → op a = AttemptOutcome.httpErr n →
        ((classify s = FailureKind.AuthError →
          loopGo op probe retries base (f + 1) a lastE =
            (RunResult.fatalAuth authFailMsg, [REvent.attemptEv a]))
        ∧ (classify s = FailureKind.ClientError →
          loopGo op probe retries base (f + 1) a lastE =
            (RunResult.fatalError (some n), [REvent.attemptEv a]))
        ∧ (classify s = FailureKind.RateLimited → 1 ≤ f →
          REvent.attemptEv (a + 1) ∈ (loopGo op probe retries base (f + 1) a lastE).2)
        ∧ (classify s = FailureKind.Transient → 1 ≤ f → a < retries →
          REvent.attemptEv (a + 1) ∈ (loopGo op probe retries base (f + 1) a lastE).2))) := by
  refine ⟨?_, ?_, ?_, ?_, ?_, ?_⟩
  · rintro (rfl | rfl) <;> decide
  · rintro rfl; decide
  · rintro n rfl h5 h6
    have ha : isAuthErrorStatus (some n) = false := by
      simp only [isAuthErrorStatus, Bool.or_eq_false_iff, beq_eq_false_iff_ne, ne_eq]
      omega
    have hb : isRateLimitedStatus (some n) = false := by
      simp only [isRateLimitedStatus, beq_eq_false_iff_ne, ne_eq]
      omega
    have hc : isRetryableStatus (some n) = true := by
      simp only [isRetryableStatus, Bool.and_eq_true, decide_eq_true_eq]
      omega
    simp [classify, ha, hb, hc]
  · rintro rfl; decide
  · rintro n rfl h4 h9 hn1 hn3 hn9
    have ha : isAuthErrorStatus (some n) = false := by
      simp only [isAuthErrorStatus, Bool.or_eq_false_iff, beq_eq_false_iff_ne, ne_eq]
      omega
    have hb : isRateLimitedStatus (some n) = false := by
      simp only [isRateLimitedStatus, beq_eq_false_iff_ne, ne_eq]
      omega
    have hc : isRetryableStatus (some n) = false := by
      simp only [isRetryableStatus, Bool.and_eq_false_iff, decide_eq_false_iff_not]
      omega
    simp [classify, ha, hb, hc]
  · rintro op probe retries base f a lastE n rfl hop
    refine ⟨?_, ?_, ?_, ?_⟩
    · intro hcls; simp [loopGo, hop, hcls]
    · intro hcls; simp [loopGo, hop, hcls]
    · intro hcls hf
      have step : loopGo op probe retries base (f + 1) a lastE =
          ((loopGo op probe retries base f (a + 1) (some n)).1,
           REvent.attemptEv a :: REvent.sleepEv (base * (a + 1) * 2) ::
             (loopGo op probe retries base f (a + 1) (some n)).2) := by
        simp [loopGo, hop, hcls]
      obtain ⟨f1, rfl⟩ : ∃ f1, f = f1 + 1 := ⟨f - 1, by omega⟩
      obtain ⟨rest, hrest⟩ := loopGo_snd_cons op probe retries base f1 (a + 1) (some n)
      rw [step]
      simp [hrest]
    · intro hcls hf hlt
      have step : loopGo op probe retries base (f + 1) a lastE =
          ((loopGo op probe retries base f (a + 1) (some n)).1,
           REvent.attemptEv a :: REvent.sleepEv (base * (a + 1)) ::
             (loopGo op probe retries base f (a + 1) (some n)).2) := by
        simp [loopGo, hop, hcls, hlt]
      obtain ⟨f1, rfl⟩ : ∃ f1, f = f1 + 1 := ⟨f - 1, by omega⟩
      obtain ⟨rest, hrest⟩ := loopGo_snd_cons op probe retries base f1 (a + 1) (some n)
      rw [step]
      simp [hrest]

/-- Witness for C1 at concrete statuses and concrete loop runs. -/
theorem classify_decides_retry_inst :
    classify (some 401) = FailureKind.AuthError
    ∧ classify (some 403) = FailureKind.AuthError
    ∧ classify (some 429) = FailureKind.RateLimited
    ∧ classify (some 503) = FailureKind.Transient
    ∧ classify none = FailureKind.Transient
    ∧ classify (some 404) = FailureKind.ClientError
    ∧ loopGo (fun _ => AttemptOutcome.httpErr 404) (fun _ => true) 3 1000 4 0 none =
        (RunResult.fatalError (some 404), [REvent.attemptEv 0])
    ∧ REvent.attemptEv 1 ∈
        (loopGo (fun _ => AttemptOutcome.httpErr 429) (fun _ => true) 3 1000 4 0 none).2
    ∧ REvent.attemptEv 1 ∈
        (loopGo (fun _ => AttemptOutcome.httpErr 503) (fun _ => true) 3 1000 4 0 none).2 :=
  ⟨(classify_decides_retry (some 401)).1 (Or.inl rfl),
   (classify_decides_retry (some 403)).1 (Or.inr rfl),
   (classify_decides_retry (some 429)).2.1 rfl,
   (classify_decides_retry (some 503)).2.2.1 503 rfl (by decide) (by decide),
   (classify_decides_retry none).2.2.2.1 rfl,
   (classify_decides_retry (some 404)).2.2.2.2.1 404 rfl (by decide) (by decide)
     (by decide) (by decide) (by decide),
   ((classify_decides_retry (some 404)).2.2.2.2.2 _ _ 3 1000 3 0 none 404 rfl rfl).2.1
     ((classify_decides_retry (some 404)).2.2.2.2.1 404 rfl (by decide) (by decide)
       (by decide) (by decide) (by decide)),
   ((classify_decides_retry (some 429)).2.2.2.2.2 _ _ 3 1000 3 0 none 429 rfl rfl).2.2.1
     ((classify_decides_retry (some 429)).2.1 rfl) (by decide),
   ((classify_decides_retry (some 503)).2.2.2.2.2 _ _ 3 1000 3 0 none 503 rfl rfl).2.2.2
     ((classify_decides_retry (some 503)).2.2.1 503 rfl (by decide) (by decide)) (by decide)
     (by decide)⟩

/-- C4.  A first attempt whose outcome classifies as AuthError makes the
engine stop after exactly one attempt, with no sleep and no probe, and
throw the authentication message, which carries the remediation hint. -/
theorem auth_single_attempt (op : Nat → AttemptOutcome) (probe : Nat → Bool)
    (retries base s : Nat) (hop : op 0 = AttemptOutcome.httpErr s)
    (hcls : classify (some s) = FailureKind.AuthError) :
    apiRequestRun op probe retries base =
      (RunResult.fatalAuth authFailMsg, [REvent.attemptEv 0])
    ∧ ∃ pre post, authFailMsg = pre ++ "venice config set api_key" ++ post := by
  constructor
  · unfold apiRequestRun
    simp [loopGo, hop, hcls]
  · exact ⟨"Authentication failed. Please check your API key.\nUpdate with: ",
      " <your-key>", rfl⟩

/-- Witness for C4: a run whose every attempt returns 401. -/
theorem auth_single_attempt_inst :
    apiRequestRun (fun _ => AttemptOutcome.httpErr 401) (fun _ => true)
      MAX_RETRIES RETRY_DELAY_MS = (RunResult.fatalAuth authFailMsg, [REvent.attemptEv 0]) :=
  (auth_single_attempt (fun _ => AttemptOutcome.httpErr 401) (fun _ => true)
    MAX_RETRIES RETRY_DELAY_MS 401 rfl (by decide)).1

/-- Counterexample to C5 as stated.  The claim predicts exactly one
connectivity probe per Transient run (only before the last retry); the
code probes before EVERY retry of a network fault (three probes in a
default run) and never probes for a 5xx Transient failure (zero
probes). -/
theorem probe_last_retry_cex :
    (apiRequestRun (fun _ => AttemptOutcome.netErr) (fun _ => true)
        MAX_RETRIES RETRY_DELAY_MS).2.countP isProbeEv = 3
    ∧ ¬ ((apiRequestRun (fun _ => AttemptOutcome.netErr) (fun _ => true)
        MAX_RETRIES RETRY_DELAY_MS).2.countP isProbeEv ≤ 1)
    ∧ (apiRequestRun (fun _ => AttemptOutcome.httpErr 500) (fun _ => true)
        MAX_RETRIES RETRY_DELAY_MS).2.countP isProbeEv = 0 := by
  decide

/-- C5 amended.  Only a network-fault (absent-status) Transient failure
triggers the connectivity probe, and it runs before every retry of such
a failure, not only the last: a failed probe escalates immediately as
offline with no further attempt, a successful probe is followed by a
wait of base * (attempt + 1) and a retry.  A 5xx Transient failure never
triggers the probe. -/
theorem probe_policy :
    (∀ (op : Nat → AttemptOutcome) (probe : Nat → Bool) (retries base f a : Nat)
      (lastE : Option Nat), op a = AttemptOutcome.netErr → a < retries →
      ((probe a = false → loopGo op probe retries base (f + 1) a lastE =
          (RunResult.fatalOffline offlineFailMsg, [REvent.attemptEv a, REvent.probeEv false]))
      ∧ (probe a = true → loopGo op probe retries base (f + 1) a lastE =
          ((loopGo op probe retries base f (a + 1) lastE).1,
           REvent.attemptEv a :: REvent.probeEv true :: REvent.sleepEv (base * (a + 1)) ::
             (loopGo op probe retries base f (a + 1) lastE).2))))
    ∧ (∀ (op : Nat → AttemptOutcome) (probe : Nat → Bool) (retries base fuel a : Nat)
      (lastE : Option Nat), (∀ i, op i ≠ AttemptOutcome.netErr) →
      ∀ e ∈ (loopGo op probe retries base fuel a lastE).2, isProbeEv e = false) := by
  constructor
  · intro op probe retries base f a lastE hop hlt
    constructor
    · intro hp; simp [loopGo, hop, hlt, hp]
    · intro hp; simp [loopGo, hop, hlt, hp]
  · intro op probe retries base fuel
    induction fuel with
    | zero => intro a lastE _ e he; simp [loopGo] at he
    | succ f ih =>
      intro a lastE hnet e he
      cases hop : op a with
      | ok =>
        simp [loopGo, hop] at he
        simp [he, isProbeEv]
      | httpErr s =>
        cases hc : classify (some s) with
        | AuthError =>
          simp [loopGo, hop, hc] at he
          simp [he, isProbeEv]
        | RateLimited =>
          simp [loopGo, hop, hc] at he
          rcases he with he | he | he
          · simp [he, isProbeEv]
          · simp [he, isProbeEv]
          · exact ih (a + 1) (some s) hnet e he
        | Transient =>
          by_cases hlt : a < retries
          · simp [loopGo, hop, hc, hlt] at he
            rcases he with he | he | he
            · simp [he, isProbeEv]
            · simp [he, isProbeEv]
            · exact ih (a + 1) (some s) hnet e he
          · simp [loopGo, hop, hc, hlt] at he
            simp [he, isProbeEv]
        | ClientError =>
          simp [loopGo, hop, hc] at he
          simp [he, isProbeEv]
      | netErr => exact absurd hop (hnet a)

/-- Witness for C5 amended: a declined probe goes offline at once, and a
pure-5xx run contains no probe events. -/
theorem probe_policy_inst :
    loopGo (fun _ => AttemptOutcome.netErr) (fun _ => false) MAX_RETRIES RETRY_DELAY_MS 4 0 none =
      (RunResult.fatalOffline offlineFailMsg, [REvent.attemptEv 0, REvent.probeEv false])
    ∧ ∀ e ∈ (loopGo (fun _ => AttemptOutcome.httpErr 503) (fun _ => true)
        MAX_RETRIES RETRY_DELAY_MS 4 0 none).2, isProbeEv e = false :=
  ⟨(probe_policy.1 (fun _ => AttemptOutcome.netErr) (fun _ => false)
      MAX_RETRIES RETRY_DELAY_MS 3 0 none rfl (by decide)).1 rfl,
   probe_policy.2 (fun _ => AttemptOutcome.httpErr 503) (fun _ => true)
     MAX_RETRIES RETRY_DELAY_MS 4 0 none (fun i h => AttemptOutcome.noConfusion h)⟩

/-! ## Lemmas about the streaming decoder -/

/-- Content-delta events are never terminal events. -/
theorem contentEvsOf_not_done (delta : Option Json) :
    ∀ e ∈ contentEvsOf delta, isDoneEvent e = false := by
  intro e he
  unfold contentEvsOf at he
  split at he
  · split at he
    · simp at he
      simp [he, isDoneEvent]
    · simp at he
  · simp at he

/-- Tool-call-delta events are never terminal events. -/
theorem toolEvsOf_not_done (delta : Option Json) :
    ∀ e ∈ toolEvsOf delta, isDoneEvent e = false := by
  intro e he
  unfold toolEvsOf at he
  split at he
  · split at he
    · simp at he
      simp [he, isDoneEvent]
    · simp at he
  · simp at he

/-- The usage update of one record factors through its own contribution:
latest wins. -/
theorem usageUpd_none (j : Json) (u : Option Json) :
    usageUpd j u = (match usageUpd j none with | some x => some x | none => u) := by
  unfold usageUpd
  cases hm : j.getField "usage" with
  | none => simp
  | some uj => by_cases ht : uj.truthy = true <;> simp [ht]

/-- A line that is not a [DONE] record neither terminates the stream nor
records to the sink; it only updates the retained usage (by its own
contribution) and yields non-terminal events. -/
theorem processLine_not_done (model : String) (u : Option Json) (line : String)
    (h : isDoneLine line = false) :
    ∃ evs, processLine model u line =
      ((match usageOfLine line with | some x => some x | none => u), evs, [], false)
      ∧ ∀ e ∈ evs, isDoneEvent e = false := by
  by_cases hp : jsStartsWithDataMarker line = true
  · have hd : ¬ (jsTrim (jsDropChars 6 line) = "[DONE]") := by
      intro hdd
      rw [isDoneLine, hp] at h
      simp [hdd] at h
    cases hj : parseJson (jsTrim (jsDropChars 6 line)) with
    | none =>
      refine ⟨[], ?_, by simp⟩
      simp [processLine, usageOfLine, hp, hd, hj]
    | some j =>
      refine ⟨contentEvsOf (deltaOf j) ++ toolEvsOf (deltaOf j), ?_, ?_⟩
      · have h1 : usageOfLine line = usageUpd j none := by
          simp [usageOfLine, hp, hd, hj]
        rw [h1, ← usageUpd_none]
        simp [processLine, hp, hd, hj]
      · intro e he
        rcases List.mem_append.mp he with h1 | h1
        · exact contentEvsOf_not_done _ e h1
        · exact toolEvsOf_not_done _ e h1
  · have hp2 : jsStartsWithDataMarker line = false := by
      cases hq : jsStartsWithDataMarker line
      · rfl
      · exact absurd hq hp
    refine ⟨[], ?_, by simp⟩
    simp [processLine, usageOfLine, hp2]

/-- Over a batch of non-[DONE] lines, the line loop yields only
non-terminal events, records nothing, keeps going, and carries the
last-seen usage. -/
theorem processLines_no_done (model : String) :
    ∀ (lines : List String) (u : Option Json),
      (∀ l ∈ lines, isDoneLine l = false) →
      ∃ evs, processLines model u lines = (lastUsageAcc u lines, evs, [], false)
        ∧ ∀ e ∈ evs, isDoneEvent e = false := by
  intro lines
  induction lines with
  | nil =>
    intro u _
    exact ⟨[], by simp [processLines, lastUsageAcc], by simp⟩
  | cons l rest ih =>
    intro u h
    have hl := h l (by simp)
    obtain ⟨evs1, hpl, hev1⟩ := processLine_not_done model u l hl
    obtain ⟨evs2, hpls, hev2⟩ := ih (match usageOfLine l with | some x => some x | none => u)
      (fun x hx => h x (by simp [hx]))
    refine ⟨evs1 ++ evs2, ?_, ?_⟩
    · simp only [processLines, hpl]
      simp [hpls, lastUsageAcc]
    · intro e he
      rcases List.mem_append.mp he with h1 | h1
      · exact hev1 e h1
      · exact hev2 e h1

/-- lastUsageAcc distributes over appended line batches. -/
theorem lastUsageAcc_append (xs ys : List String) :
    ∀ u, lastUsageAcc u (xs ++ ys) = lastUsageAcc (lastUsageAcc u xs) ys := by
  induction xs with
  | nil => intro u; simp [lastUsageAcc]
  | cons x xs ih => intro u; simp [lastUsageAcc, ih]

/-- The read loop on a stream with no [DONE] record: all yielded events
are non-terminal except a single final done event carrying the last-seen
usage, and nothing is recorded to the sink. -/
theorem decodeGo_no_done (model : String) :
    ∀ (chunks : List String) (buffer : String) (u : Option Json),
      (∀ l ∈ allProcessedLines buffer chunks, isDoneLine l = false) →
      ∃ pre, decodeGo model u buffer chunks =
        (pre ++ [StreamEvent.doneEv (lastUsageAcc u (allProcessedLines buffer chunks))], [])
        ∧ ∀ e ∈ pre, isDoneEvent e = false := by
  intro chunks
  induction chunks with
  | nil =>
    intro buffer u _
    exact ⟨[], by simp [decodeGo, allProcessedLines, lastUsageAcc], by simp⟩
  | cons c rest ih =>
    intro buffer u h
    have hsplit : allProcessedLines buffer (c :: rest) =
        (jsSplitNl (buffer ++ c)).dropLast ++
          allProcessedLines ((jsSplitNl (buffer ++ c)).getLastD "") rest := rfl
    obtain ⟨evs, hpl, hev⟩ := processLines_no_done model (jsSplitNl (buffer ++ c)).dropLast u
      (fun l hl => h l (by rw [hsplit]; exact List.mem_append.mpr (Or.inl hl)))
    obtain ⟨pre2, hdec, hev2⟩ := ih ((jsSplitNl (buffer ++ c)).getLastD "")
      (lastUsageAcc u (jsSplitNl (buffer ++ c)).dropLast)
      (fun l hl => h l (by rw [hsplit]; exact List.mem_append.mpr (Or.inr hl)))
    refine ⟨evs ++ pre2, ?_, ?_⟩
    · simp only [decodeGo]
      rw [hpl]
      simp only [hdec]
      simp [hsplit, lastUsageAcc_append, List.append_assoc]
    · intro e he
      rcases List.mem_append.mp he with h1 | h1
      · exact hev e h1
      · exact hev2 e h1

/-- C6.  The streaming decoder skips a malformed data record silently
(removing it from the line stream changes nothing), a [DONE] record
terminates the sequence regardless of what follows, and decoding a
malformed record followed by a valid [DONE] yields only the terminal
event. -/
theorem decoder_malformed_skip :
    (∀ (model : String) (u : Option Json) (line : String) (rest : List String),
      jsStartsWithDataMarker line = true →
      jsTrim (jsDropChars 6 line) ≠ "[DONE]" →
      parseJson (jsTrim (jsDropChars 6 line)) = none →
      processLines model u (line :: rest) = processLines model u rest)
    ∧ (∀ (model : String) (u : Option Json) (rest : List String),
      processLines model u ("data: [DONE]" :: rest) =
        (u, [StreamEvent.doneEv u],
         (match u with | some uj => [SinkRecord.mk "chat" model uj] | none => []), true))
    ∧ chatCompletionStream "llama-3.3-70b" ["data: \x7bnot json\n\ndata: [DONE]\n\n"] =
        ([StreamEvent.doneEv none], []) := by
  refine ⟨?_, ?_, ?_⟩
  · intro model u line rest h1 h2 h3
    have hl : processLine model u line = (u, [], [], false) := by
      simp [processLine, h1, h2, h3]
    simp [processLines, hl]
  · intro model u rest
    have h1 : jsStartsWithDataMarker "data: [DONE]" = true := by decide
    have h2 : jsTrim (jsDropChars 6 "data: [DONE]") = "[DONE]" := by decide
    have hl : processLine model u "data: [DONE]" =
        (u, [StreamEvent.doneEv u],
         (match u with | some uj => [SinkRecord.mk "chat" model uj] | none => []), true) := by
      simp [processLine, h1, h2]
    simp [processLines, hl]
  · rfl

/-- Witness for C6: the concrete malformed record is skipped and the
concrete [DONE] record terminates. -/
theorem decoder_malformed_skip_inst :
    processLines "llama-3.3-70b" none ["data: \x7bnot json", "data: [DONE]"] =
      processLines "llama-3.3-70b" none ["data: [DONE]"]
    ∧ processLines "llama-3.3-70b" none ["data: [DONE]"] =
      (none, [StreamEvent.doneEv none], [], true) :=
  ⟨decoder_malformed_skip.1 "llama-3.3-70b" none "data: \x7bnot json" ["data: [DONE]"]
    (by decide) (by decide) rfl,
   decoder_malformed_skip.2.1 "llama-3.3-70b" none []⟩

/-- C10.  A stream ending without any [DONE] record still yields exactly
one terminal event, at the end, carrying the last-seen usage totals (none
if no usage record was seen), and records nothing to the usage sink. -/
theorem eos_without_done (model : String) (chunks : List String)
    (h : ∀ l ∈ allProcessedLines "" chunks, isDoneLine l = false) :
    ∃ pre, chatCompletionStream model chunks =
      (pre ++ [StreamEvent.doneEv (lastUsageAcc none (allProcessedLines "" chunks))], [])
      ∧ ∀ e ∈ pre, isDoneEvent e = false :=
  decodeGo_no_done model chunks "" none h

/-- A concrete usage-bearing stream that is never terminated by [DONE]. -/
def eosChunk : String :=
  "data: \x7b\"usage\":\x7b\"prompt_tokens\":1,\"completion_tokens\":2,\"total_tokens\":3\x7d\x7d\n\n"

/-- Witness for C10 on a concrete unterminated stream. -/
theorem eos_without_done_inst :
    ∃ pre, chatCompletionStream "llama-3.3-70b" [eosChunk] =
      (pre ++ [StreamEvent.doneEv (lastUsageAcc none (allProcessedLines "" [eosChunk]))], [])
      ∧ ∀ e ∈ pre, isDoneEvent e = false :=
  eos_without_done "llama-3.3-70b" [eosChunk] (by decide)

/-! ## C8: interactive approval in the tool dispatcher -/

/-- C8.  When interactive approval is enabled and the approval prompt
declines, executeTool returns the fixed cancellation text for every
possible handler registry containing the tool, so the underlying handler
is never invoked; dropping the found-handler hypothesis, the result is
also pointwise independent of the handler bound to the name. -/
theorem interactive_decline_cancel
    (executors : List (String × (Json → Except String String)))
    (name : String) (args : Json) (approve : String → Json → Bool)
    (hfound : (executors.lookup name).isSome = true)
    (hdecl : approve name args = false) :
    executeTool executors name args true approve = "Tool execution cancelled by user"
    ∧ ∀ ex1 ex2 : Json → Except String String,
        executeTool [(name, ex1)] name args true approve =
          executeTool [(name, ex2)] name args true approve := by
  constructor
  · cases h : executors.lookup name with
    | none => rw [h] at hfound; simp at hfound
    | some ex => simp [executeTool, h, hdecl]
  · intro ex1 ex2
    simp [executeTool, hdecl]

/-- Witness for C8 on a concrete registry and a declining prompt. -/
theorem interactive_decline_cancel_inst :
    executeTool [("calculator", fun _ => Except.ok "Result: 4")] "calculator" Json.null
      true (fun _ _ => false) = "Tool execution cancelled by user" :=
  (interactive_decline_cancel [("calculator", fun _ => Except.ok "Result: 4")]
    "calculator" Json.null (fun _ _ => false) rfl rfl).1

/-! ## C7: the usage sink and the exchange result -/

/-- A concrete successful response carrying usage totals. -/
def cexResp : NonStreamResp :=
  NonStreamResp.mk [RespChoice.mk (some (RespMessage.mk (some "Hello!") none)) (some "stop")]
    (some (Usage.mk 10 5 15))

/-- Counterexample to C7 as stated.  With usage present, a failing write
in the usage sink (trackUsage propagating a saveUsage failure) makes
chatCompletion throw, while the same response with a succeeding sink
returns the final content: the exchange result is NOT independent of the
sink outcome. -/
theorem usage_sink_cex :
    chatCompletion cexResp "llama-3.3-70b"
      (fun e => (trackUsage (Except.ok []) (fun _ => true) false e).map (fun _ => ())) =
      Except.error "write failed"
    ∧ chatCompletion cexResp "llama-3.3-70b"
      (fun e => (trackUsage (Except.ok []) (fun _ => true) true e).map (fun _ => ())) =
      Except.ok (ChatResponse.mk "Hello!" [] (some (Usage.mk 10 5 15)) "stop")
    ∧ (Except.error "write failed" : Except String ChatResponse) ≠
      Except.ok (ChatResponse.mk "Hello!" [] (some (Usage.mk 10 5 15)) "stop") :=
  ⟨rfl, rfl, fun h => Except.noConfusion h⟩

/-- C7 amended.  The usage-sink call in chatCompletion is unguarded: when
the response carries usage totals, a sink failure propagates and aborts
the exchange; only when the response has no usage is the exchange result
independent of the sink. -/
theorem usage_sink_propagation (resp : NonStreamResp) (model : String) :
    (resp.usage = none →
      ∀ t1 t2 : UsageEntry → Except String Unit,
        chatCompletion resp model t1 = chatCompletion resp model t2)
    ∧ (∀ (u : Usage) (e : String) (t : UsageEntry → Except String Unit),
        resp.usage = some u → t (UsageEntry.mk "chat" model u) = Except.error e →
        chatCompletion resp model t = Except.error e)
    ∧ (∀ (u : Usage) (t : UsageEntry → Except String Unit),
        resp.usage = some u → t (UsageEntry.mk "chat" model u) = Except.ok () →
        ∃ r, chatCompletion resp model t = Except.ok r) := by
  refine ⟨?_, ?_, ?_⟩
  · intro hu t1 t2
    simp [chatCompletion, hu]
  · intro u e t hu ht
    simp [chatCompletion, hu, ht]
  · intro u t hu ht
    exact ⟨ChatResponse.mk
      (((resp.choices.head?.bind (fun c => c.message)).bind (fun m => m.content)).getD "")
      (((resp.choices.head?.bind (fun c => c.message)).bind (fun m => m.tool_calls)).getD [])
      (some u)
      ((resp.choices.head?.bind (fun c => c.finish_reason)).getD "stop"),
      by simp [chatCompletion, hu, ht]⟩

/-- Witness for C7 amended: a usage-free response is sink-independent,
and a failing sink aborts a usage-bearing response. -/
theorem usage_sink_propagation_inst :
    chatCompletion (NonStreamResp.mk [] none) "m" (fun _ => Except.error "x") =
      chatCompletion (NonStreamResp.mk [] none) "m" (fun _ => Except.ok ())
    ∧ chatCompletion cexResp "llama-3.3-70b" (fun _ => Except.error "disk full") =
      Except.error "disk full" :=
  ⟨(usage_sink_propagation (NonStreamResp.mk [] none) "m").1 rfl
     (fun _ => Except.error "x") (fun _ => Except.ok ()),
   (usage_sink_propagation cexResp "llama-3.3-70b").2.1 (Usage.mk 10 5 15) "disk full"
     (fun _ => Except.error "disk full") rfl rfl⟩

/-! ## Lemmas about the conversation loop -/

/-- If any tool call in the batch has unparseable arguments, the
non-streaming tool loop throws. -/
theorem runToolCalls_mem_error (dispatch : String → Json → String) (content : String) :
    ∀ (l : List ToolCall) (msgs : List Message) (tc : ToolCall),
      tc ∈ l → parseArgs tc.function.arguments = none →
      ∃ e, runToolCalls dispatch content l msgs = Except.error e := by
  intro l
  induction l with
  | nil => intro msgs tc h; cases h
  | cons t rest ih =>
    intro msgs tc hmem hbad
    cases hp : parseArgs t.function.arguments with
    | none =>
      exact ⟨"JSON parse error in tool arguments: " ++ t.function.arguments,
        by simp [runToolCalls, hp]⟩
    | some a =>
      rcases List.mem_cons.mp hmem with h | h
      · subst h; rw [hp] at hbad; cases hbad
      · obtain ⟨e, he⟩ := ih (msgs ++ [Message.mk "assistant" content [t] none,
          Message.mk "tool" (dispatch t.function.name a) [] (some t.id)]) tc h hbad
        exact ⟨e, by simp [runToolCalls, hp, he]⟩

/-- If any tool call in the batch has unparseable arguments, the
streaming per-call loop throws. -/
theorem streamToolLoop_mem_error (dispatch : String → Json → String) (model fc : String)
    (sapi : Nat → List StreamChunk) :
    ∀ (l : List ToolCall) (msgs : List Message) (calls : List ApiCall)
      (printed : List String) (usage : Option Json) (k : Nat) (tc : ToolCall),
      tc ∈ l → parseArgs tc.function.arguments = none →
      ∃ e, streamToolLoop dispatch model fc sapi l msgs calls printed usage k =
        Except.error e := by
  intro l
  induction l with
  | nil => intro msgs calls printed usage k tc h; cases h
  | cons t rest ih =>
    intro msgs calls printed usage k tc hmem hbad
    cases hp : parseArgs t.function.arguments with
    | none =>
      exact ⟨"JSON parse error in tool arguments: " ++ t.function.arguments,
        by simp [streamToolLoop, hp]⟩
    | some a =>
      rcases List.mem_cons.mp hmem with h | h
      · subst h; rw [hp] at hbad; cases hbad
      · obtain ⟨e, he⟩ := ih
          (msgs ++ [Message.mk "assistant" fc [t] none,
            Message.mk "tool" (dispatch t.function.name a) [] (some t.id)])
          (calls ++ [ApiCall.mk (msgs ++ [Message.mk "assistant" fc [t] none,
            Message.mk "tool" (dispatch t.function.name a) [] (some t.id)]) model []])
          (printed ++ [(sapi k).foldl (fun acc2 ch => acc2 ++ ch.content.getD "") ""])
          ((sapi k).foldl
            (fun uacc ch => match ch.usage with | some x => some x | none => uacc) usage)
          (k + 1) tc h hbad
        exact ⟨e, by simp [streamToolLoop, hp, he]⟩

/-- A successful streaming per-call loop appends exactly one follow-up
request per tool call, each with the same model and no tools offered. -/
theorem streamToolLoop_struct (dispatch : String → Json → String) (model fc : String)
    (sapi : Nat → List StreamChunk) :
    ∀ (l : List ToolCall) (msgs : List Message) (calls : List ApiCall)
      (printed : List String) (usage : Option Json) (k : Nat)
      (m : List Message) (cs : List ApiCall) (p : List String) (uu : Option Json),
      streamToolLoop dispatch model fc sapi l msgs calls printed usage k =
        Except.ok (m, cs, p, uu) →
      ∃ news, cs = calls ++ news ∧ news.length = l.length ∧
        ∀ c2 ∈ news, c2.model = model ∧ c2.tools = [] := by
  intro l
  induction l with
  | nil =>
    intro msgs calls printed usage k m cs p uu h
    simp [streamToolLoop] at h
    exact ⟨[], by simp [h.2.1], by simp, by simp⟩
  | cons t rest ih =>
    intro msgs calls printed usage k m cs p uu h
    cases hp : parseArgs t.function.arguments with
    | none => simp [streamToolLoop, hp] at h
    | some a =>
      simp only [streamToolLoop, hp] at h
      obtain ⟨news, hcs, hlen, hmem⟩ := ih _ _ _ _ _ _ _ _ _ h
      refine ⟨ApiCall.mk (msgs ++ [Message.mk "assistant" fc [t] none,
          Message.mk "tool" (dispatch t.function.name a) [] (some t.id)]) model [] :: news,
        ?_, ?_, ?_⟩
      · rw [hcs]; simp
      · simp [hlen]
      · intro c2 hc2
        rcases List.mem_cons.mp hc2 with h1 | h1
        · subst h1; exact ⟨rfl, rfl⟩
        · exact hmem c2 h1

/-! ## C2: a tool-call argument parse failure aborts the exchange -/

/-- The single user message of the concrete scenarios. -/
def cexUserMsg : Message := Message.mk "user" "what is 2+2 using the calculator" [] none

/-- A tool call whose arguments string does not parse. -/
def cexBadToolCall : ToolCall :=
  ToolCall.mk "call_9" (ToolCallFunction.mk "calculator" "\x7bnot json")

/-- A response whose only tool call has unparseable arguments. -/
def cexBadApi : Nat → ChatResponse :=
  fun _ => ChatResponse.mk "" [cexBadToolCall] none "tool_calls"

/-- A streamed first response whose only tool-call fragment has
unparseable arguments. -/
def cexBadStreamApi : Nat → List StreamChunk :=
  fun _ => [StreamChunk.mk none (some [cexBadToolCall]) none true]

/-- Counterexample to C2 as stated.  The arguments of an accumulated tool
call are fed to an unguarded JSON.parse in both conversation modes, so a
parse failure propagates as a thrown error (aborting the exchange)
instead of being turned into a textual tool result. -/
theorem toolcall_parse_abort_cex :
    nonStreamChat [cexUserMsg] "llama-3.3-70b" [] (fun _ _ => "ok") cexBadApi =
      Except.error "JSON parse error in tool arguments: \x7bnot json"
    ∧ streamChat [cexUserMsg] "llama-3.3-70b" [] (fun _ _ => "ok") cexBadStreamApi =
      Except.error "JSON parse error in tool arguments: \x7bnot json" :=
  ⟨rfl, rfl⟩

/-- C2 amended.  In both conversation modes, an accumulated tool call
whose arguments string does not parse makes the conversation loop throw
and abort the exchange; the parse failure is not converted into a
textual error result. -/
theorem toolcall_parse_abort
    (msgs0 : List Message) (model : String) (tools : List ToolDefinition)
    (dispatch : String → Json → String) (api : Nat → ChatResponse)
    (sapi : Nat → List StreamChunk) (tc tc' : ToolCall)
    (hmem : tc ∈ (api 0).tool_calls)
    (hbad : parseArgs tc.function.arguments = none)
    (hmem2 : tc' ∈ (accumGo ("", [], none) (sapi 0)).2.1)
    (hbad2 : parseArgs tc'.function.arguments = none) :
    (∃ e, nonStreamChat msgs0 model tools dispatch api = Except.error e)
    ∧ (∃ e, streamChat msgs0 model tools dispatch sapi = Except.error e) := by
  constructor
  · have hne : (api 0).tool_calls ≠ [] := List.ne_nil_of_mem hmem
    obtain ⟨e, he⟩ := runToolCalls_mem_error dispatch (api 0).content
      (api 0).tool_calls msgs0 tc hmem hbad
    exact ⟨e, by simp [nonStreamChat, hne, he]⟩
  · have hne : (accumGo ("", [], none) (sapi 0)).2.1 ≠ [] := List.ne_nil_of_mem hmem2
    obtain ⟨e, he⟩ := streamToolLoop_mem_error dispatch model
      (accumGo ("", [], none) (sapi 0)).1 sapi (accumGo ("", [], none) (sapi 0)).2.1 msgs0
      [ApiCall.mk msgs0 model tools] [(accumGo ("", [], none) (sapi 0)).1]
      (accumGo ("", [], none) (sapi 0)).2.2 1 tc' hmem2 hbad2
    exact ⟨e, by simp [streamChat, hne, he]⟩

/-- Witness for C2 amended on the concrete unparseable tool call. -/
theorem toolcall_parse_abort_inst :
    (∃ e, nonStreamChat [cexUserMsg] "llama-3.3-70b" [] (fun _ _ => "ok") cexBadApi =
      Except.error e)
    ∧ (∃ e, streamChat [cexUserMsg] "llama-3.3-70b" [] (fun _ _ => "ok") cexBadStreamApi =
      Except.error e) :=
  toolcall_parse_abort [cexUserMsg] "llama-3.3-70b" [] (fun _ _ => "ok") cexBadApi
    cexBadStreamApi cexBadToolCall cexBadToolCall (by decide) rfl (by decide) rfl

/-! ## C3: follow-up rounds per batch of tool calls -/

/-- A first-turn tool call with well-formed arguments. -/
def cexToolCallA : ToolCall :=
  ToolCall.mk "call_1" (ToolCallFunction.mk "calculator" "\x7b\"expression\":\"2+2\"\x7d")

/-- A second first-turn tool call with well-formed arguments. -/
def cexToolCallB : ToolCall :=
  ToolCall.mk "call_2" (ToolCallFunction.mk "calculator" "\x7b\"expression\":\"3+3\"\x7d")

/-- A streamed exchange whose first turn returns TWO tool calls; every
follow-up streams one content chunk. -/
def cexStreamApi : Nat → List StreamChunk :=
  fun k =>
    if k = 0 then
      [StreamChunk.mk none (some [cexToolCallA, cexToolCallB]) none false,
       StreamChunk.mk none none none true]
    else
      [StreamChunk.mk (some "The answer is 4.") none none false,
       StreamChunk.mk none none none true]

/-- Counterexample to C3 as stated.  With two tool calls in the first
streamed turn, streamChat issues one follow-up exchange PER TOOL CALL:
the run makes 3 requests in total (initial plus two follow-ups), not the
2 that a single whole-batch follow-up would give. -/
theorem followup_per_batch_cex :
    streamRunCallCount (streamChat [cexUserMsg] "llama-3.3-70b" ["calculator"]
      (fun _ _ => "Result: 4") cexStreamApi) = 3
    ∧ ¬ streamRunCallCount (streamChat [cexUserMsg] "llama-3.3-70b" ["calculator"]
      (fun _ _ => "Result: 4") cexStreamApi) = 2 := by
  constructor
  · rfl
  · intro h
    rw [show streamRunCallCount (streamChat [cexUserMsg] "llama-3.3-70b" ["calculator"]
      (fun _ _ => "Result: 4") cexStreamApi) = 3 from rfl] at h
    cases h

/-- C3 amended.  Non-streaming: nonStreamChat issues exactly one
follow-up request for the whole batch, with the same model and no tools,
and its content is the final answer.  Streaming: streamChat issues one
follow-up request per accumulated tool call (same model, no tools), so a
batch of n calls gets n follow-up rounds, not one. -/
theorem followup_rounds :
    (∀ (msgs0 : List Message) (model : String) (tools : List ToolDefinition)
      (dispatch : String → Json → String) (api : Nat → ChatResponse) (m1 : List Message),
      (api 0).tool_calls ≠ [] →
      runToolCalls dispatch (api 0).content (api 0).tool_calls msgs0 = Except.ok m1 →
      nonStreamChat msgs0 model tools dispatch api =
        Except.ok (ChatRun.mk m1
          [ApiCall.mk msgs0 model tools, ApiCall.mk m1 model []] (api 1).content))
    ∧ (∀ (msgs0 : List Message) (model : String) (tools : List ToolDefinition)
      (dispatch : String → Json → String) (sapi : Nat → List StreamChunk) (run : StreamRun),
      streamChat msgs0 model tools dispatch sapi = Except.ok run →
      ∃ rest, run.calls = ApiCall.mk msgs0 model tools :: rest ∧
        rest.length = (accumGo ("", [], none) (sapi 0)).2.1.length ∧
        ∀ c2 ∈ rest, c2.model = model ∧ c2.tools = []) := by
  constructor
  · intro msgs0 model tools dispatch api m1 hne hrun
    simp [nonStreamChat, hne, hrun]
  · intro msgs0 model tools dispatch sapi run hok
    simp only [streamChat] at hok
    by_cases hc : (accumGo ("", [], none) (sapi 0)).2.1 = []
    · rw [if_pos hc] at hok
      injection hok with hok
      subst hok
      exact ⟨[], by simp, by simp [hc], by simp⟩
    · rw [if_neg hc] at hok
      cases hst : streamToolLoop dispatch model (accumGo ("", [], none) (sapi 0)).1 sapi
          (accumGo ("", [], none) (sapi 0)).2.1 msgs0 [ApiCall.mk msgs0 model tools]
          [(accumGo ("", [], none) (sapi 0)).1] (accumGo ("", [], none) (sapi 0)).2.2 1 with
      | error e => rw [hst] at hok; exact Except.noConfusion hok
      | ok q =>
        obtain ⟨m, cs, p, uu⟩ := q
        rw [hst] at hok
        simp only [] at hok
        injection hok with hok
        subst hok
        obtain ⟨news, hcs, hlen, hmem⟩ := streamToolLoop_struct dispatch model
          (accumGo ("", [], none) (sapi 0)).1 sapi (accumGo ("", [], none) (sapi 0)).2.1
          msgs0 [ApiCall.mk msgs0 model tools] [(accumGo ("", [], none) (sapi 0)).1]
          (accumGo ("", [], none) (sapi 0)).2.2 1 m cs p uu hst
        exact ⟨news, by simp [hcs], hlen, hmem⟩

/-- The non-streaming exchange whose first turn returns one tool call and
whose follow-up answers. -/
def cexNonStreamApi : Nat → ChatResponse :=
  fun k =>
    if k = 0 then ChatResponse.mk "" [cexToolCallA] none "tool_calls"
    else ChatResponse.mk "2 + 2 = 4" [] none "stop"

/-- The run streamChat produces on cexStreamApi. -/
def cexStreamRun : StreamRun :=
  StreamRun.mk
    [cexUserMsg,
     Message.mk "assistant" "" [cexToolCallA] none,
     Message.mk "tool" "Result: 4" [] (some "call_1"),
     Message.mk "assistant" "" [cexToolCallB] none,
     Message.mk "tool" "Result: 4" [] (some "call_2")]
    [ApiCall.mk [cexUserMsg] "llama-3.3-70b" ["calculator"],
     ApiCall.mk [cexUserMsg,
       Message.mk "assistant" "" [cexToolCallA] none,
       Message.mk "tool" "Result: 4" [] (some "call_1")] "llama-3.3-70b" [],
     ApiCall.mk [cexUserMsg,
       Message.mk "assistant" "" [cexToolCallA] none,
       Message.mk "tool" "Result: 4" [] (some "call_1"),
       Message.mk "assistant" "" [cexToolCallB] none,
       Message.mk "tool" "Result: 4" [] (some "call_2")] "llama-3.3-70b" []]
    ["", "The answer is 4.", "The answer is 4."]
    none

/-- Witness for C3 amended: the one-tool-call non-streaming run and the
two-tool-call streaming run. -/
theorem followup_rounds_inst :
    nonStreamChat [cexUserMsg] "llama-3.3-70b" ["calculator"] (fun _ _ => "Result: 4")
      cexNonStreamApi =
      Except.ok (ChatRun.mk
        [cexUserMsg, Message.mk "assistant" "" [cexToolCallA] none,
         Message.mk "tool" "Result: 4" [] (some "call_1")]
        [ApiCall.mk [cexUserMsg] "llama-3.3-70b" ["calculator"],
         ApiCall.mk [cexUserMsg, Message.mk "assistant" "" [cexToolCallA] none,
           Message.mk "tool" "Result: 4" [] (some "call_1")] "llama-3.3-70b" []]
        "2 + 2 = 4")
    ∧ ∃ rest, cexStreamRun.calls =
        ApiCall.mk [cexUserMsg] "llama-3.3-70b" ["calculator"] :: rest ∧
        rest.length = (accumGo ("", [], none) (cexStreamApi 0)).2.1.length ∧
        ∀ c2 ∈ rest, c2.model = "llama-3.3-70b" ∧ c2.tools = [] :=
  ⟨followup_rounds.1 [cexUserMsg] "llama-3.3-70b" ["calculator"] (fun _ _ => "Result: 4")
     cexNonStreamApi
     [cexUserMsg, Message.mk "assistant" "" [cexToolCallA] none,
      Message.mk "tool" "Result: 4" [] (some "call_1")] (by decide) rfl,
   followup_rounds.2 [cexUserMsg] "llama-3.3-70b" ["calculator"] (fun _ _ => "Result: 4")
     cexStreamApi cexStreamRun rfl⟩

/-! ## C9: message-list growth for a single tool call -/

/-- A streamed exchange whose first turn returns exactly one tool call. -/
def cexOneStreamApi : Nat → List StreamChunk :=
  fun k =>
    if k = 0 then
      [StreamChunk.mk none (some [cexToolCallA]) none false,
       StreamChunk.mk none none none true]
    else
      [StreamChunk.mk (some "The answer is 4.") none none false,
       StreamChunk.mk none none none true]

/-- Counterexample to C9 as stated.  Starting from a single user message
with one tool call in the first turn, the updated list has 3 entries in
TOTAL — it gains exactly 2 entries beyond the original user message
(assistant with the call, then the tool result), not 3. -/
theorem message_growth_cex :
    chatRunMsgCount (nonStreamChat [cexUserMsg] "llama-3.3-70b" ["calculator"]
      (fun _ _ => "Result: 4") cexNonStreamApi) = 3
    ∧ chatRunMsgCount (nonStreamChat [cexUserMsg] "llama-3.3-70b" ["calculator"]
      (fun _ _ => "Result: 4") cexNonStreamApi) - 1 = 2
    ∧ ¬ (chatRunMsgCount (nonStreamChat [cexUserMsg] "llama-3.3-70b" ["calculator"]
      (fun _ _ => "Result: 4") cexNonStreamApi) - 1 = 3) := by
  refine ⟨rfl, rfl, ?_⟩
  intro h
  rw [show chatRunMsgCount (nonStreamChat [cexUserMsg] "llama-3.3-70b" ["calculator"]
    (fun _ _ => "Result: 4") cexNonStreamApi) = 3 from rfl] at h
  cases h

/-- C9 amended.  In an exchange starting from a single user message whose
first turn returns exactly one tool call with parseable arguments, the
updated message list gains exactly 2 entries beyond the user message, in
strict pairing: an assistant message carrying the partial content plus
the call, then a tool-result message tagged with the originating call
id; the follow-up message itself is not appended.  This holds in both
modes. -/
theorem message_growth
    (u : Message) (model : String) (tools : List ToolDefinition)
    (dispatch : String → Json → String) (api : Nat → ChatResponse)
    (sapi : Nat → List StreamChunk) (tc : ToolCall) (a : Json)
    (hone : (api 0).tool_calls = [tc])
    (hsone : (accumGo ("", [], none) (sapi 0)).2.1 = [tc])
    (hp : parseArgs tc.function.arguments = some a) :
    nonStreamChat [u] model tools dispatch api =
      Except.ok (ChatRun.mk
        [u, Message.mk "assistant" (api 0).content [tc] none,
         Message.mk "tool" (dispatch tc.function.name a) [] (some tc.id)]
        [ApiCall.mk [u] model tools,
         ApiCall.mk [u, Message.mk "assistant" (api 0).content [tc] none,
           Message.mk "tool" (dispatch tc.function.name a) [] (some tc.id)] model []]
        (api 1).content)
    ∧ ∃ calls printed usage2, streamChat [u] model tools dispatch sapi =
        Except.ok (StreamRun.mk
          [u, Message.mk "assistant" (accumGo ("", [], none) (sapi 0)).1 [tc] none,
           Message.mk "tool" (dispatch tc.function.name a) [] (some tc.id)]
          calls printed usage2) := by
  constructor
  · simp [nonStreamChat, hone, runToolCalls, hp]
  · refine ⟨[ApiCall.mk [u] model tools,
      ApiCall.mk [u, Message.mk "assistant" (accumGo ("", [], none) (sapi 0)).1 [tc] none,
        Message.mk "tool" (dispatch tc.function.name a) [] (some tc.id)] model []],
      [(accumGo ("", [], none) (sapi 0)).1,
       (sapi 1).foldl (fun acc2 ch => acc2 ++ ch.content.getD "") ""],
      (sapi 1).foldl (fun uacc ch => match ch.usage with | some x => some x | none => uacc)
        (accumGo ("", [], none) (sapi 0)).2.2, ?_⟩
    simp [streamChat, hsone, streamToolLoop, hp]

/-- Witness for C9 amended on the concrete one-tool-call exchange. -/
theorem message_growth_inst :
    nonStreamChat [cexUserMsg] "llama-3.3-70b" [] (fun _ _ => "Result: 4")
      cexNonStreamApi =
      Except.ok (ChatRun.mk
        [cexUserMsg,
         Message.mk "assistant" (cexNonStreamApi 0).content [cexToolCallA] none,
         Message.mk "tool" ((fun (_ : String) (_ : Json) => "Result: 4")
           cexToolCallA.function.name (Json.obj [("expression", Json.str "2+2")])) []
           (some cexToolCallA.id)]
        [ApiCall.mk [cexUserMsg] "llama-3.3-70b" [],
         ApiCall.mk [cexUserMsg,
           Message.mk "assistant" (cexNonStreamApi 0).content [cexToolCallA] none,
           Message.mk "tool" ((fun (_ : String) (_ : Json) => "Result: 4")
             cexToolCallA.function.name (Json.obj [("expression", Json.str "2+2")])) []
             (some cexToolCallA.id)] "llama-3.3-70b" []]
        (cexNonStreamApi 1).content)
    ∧ ∃ calls printed usage2,
        streamChat [cexUserMsg] "llama-3.3-70b" [] (fun _ _ => "Result: 4") cexOneStreamApi =
          Except.ok (StreamRun.mk
            [cexUserMsg,
             Message.mk "assistant" (accumGo ("", [], none) (cexOneStreamApi 0)).1
               [cexToolCallA] none,
             Message.mk "tool" ((fun (_ : String) (_ : Json) => "Result: 4")
               cexToolCallA.function.name (Json.obj [("expression", Json.str "2+2")])) []
               (some cexToolCallA.id)]
            calls printed usage2) :=
  message_growth cexUserMsg "llama-3.3-70b" [] (fun _ _ => "Result: 4") cexNonStreamApi
    cexOneStreamApi cexToolCallA (Json.obj [("expression", Json.str "2+2")])
    rfl rfl rfl
